import Mathlib

/-!
Verification of the request-handling flow of the smart-policy-generator web
application (single source file `app.py`).

The embedding models Python strings as `List Char` (`Str`), Flask form data as
optional fields (`request.form.get` with its defaults), the local `stories.txt`
resource as an explicit `FileState`, the outbound HTTP interaction of
`call_gemini_api` as a `NetOutcome` chosen by the environment, and Python
exceptions as `Except PyExc`.  Each definition is a direct translation of the
corresponding function in `app.py`; deviations from CPython semantics that are
irrelevant to the verified properties (for example, Unicode case folding beyond
ASCII) are noted in comments at the definition site.
-/

set_option maxRecDepth 8192

/-- Python strings, modelled as lists of characters. -/
abbrev Str := List Char

/-- Characters of the default strip set of Python `str.strip()`:
space, tab, newline, carriage return, vertical tab, form feed. -/
def pyIsSpace (c : Char) : Bool :=
  c = ' ' || c = '\t' || c = '\n' || c = '\r' || c = '\x0b' || c = '\x0c'

/-- `dropWhile` from the right end of a list. -/
def dropEnd (p : Char → Bool) (s : Str) : Str :=
  (s.reverse.dropWhile p).reverse

/-- Python `str.strip()` with no argument: remove leading and trailing
whitespace. -/
def pyStrip (s : Str) : Str :=
  dropEnd pyIsSpace (s.dropWhile pyIsSpace)

/-- Python `str.lower()`, ASCII fragment (the application only compares
against ASCII allow-lists). `Char.toLower` maps `A`–`Z` to `a`–`z` and leaves
all other characters unchanged, like CPython does on ASCII input. -/
def pyLower (s : Str) : Str :=
  s.map Char.toLower

/-- Python `str.split(sep)` for a one-character separator `sep`:
`splitChar sep "a,,b" = ["a", "", "b"]`, `splitChar sep "" = [""]`. -/
def splitChar (sep : Char) : Str → List Str
  | [] => [[]]
  | c :: cs =>
    if c = sep then [] :: splitChar sep cs
    else
      match splitChar sep cs with
      | [] => [[c]]
      | l :: ls => (c :: l) :: ls

/-- Python `"\n".join(lines)`. -/
def joinNl : List Str → Str
  | [] => []
  | [l] => l
  | l :: ls => l ++ '\n' :: joinNl ls

/-- Python `str.splitlines()` (for the `\n`, `\r\n` and `\r` terminators;
the exotic Unicode line boundaries do not occur in this code base).
A trailing terminator does not produce a final empty line. -/
def pySplitlines : Str → List Str
  | [] => []
  | '\r' :: '\n' :: cs => [] :: pySplitlines cs
  | '\n' :: cs => [] :: pySplitlines cs
  | '\r' :: cs => [] :: pySplitlines cs
  | c :: cs =>
    match pySplitlines cs with
    | [] => [[c]]
    | l :: ls => (c :: l) :: ls

/-- Python `str.replace(" ", "_")` (single-character replacement, hence a map). -/
def pyReplaceSpaceUnderscore (s : Str) : Str :=
  s.map (fun c => if c = ' ' then '_' else c)

/-- One step of Python `str.title()`: the flag records whether the previous
character was alphabetic; a letter after a non-letter is uppercased, any other
letter is lowercased (ASCII fragment, as in `pyLower`). -/
def pyTitleAux : Bool → Str → Str
  | _, [] => []
  | prevAlpha, c :: cs =>
    (if c.isAlpha then (if prevAlpha then c.toLower else c.toUpper) else c)
      :: pyTitleAux c.isAlpha cs

/-- Python `str.title()`. -/
def pyTitle (s : Str) : Str :=
  pyTitleAux false s

/-- Decimal digit character for `n < 10`. -/
def digitChar (n : Nat) : Char :=
  Char.ofNat (48 + n)

/-- Zero-padded two-digit decimal rendering (as `strftime` `%m`, `%d`, `%H`,
`%M`, `%S` produce). -/
def pad2 (n : Nat) : Str :=
  [digitChar (n / 10 % 10), digitChar (n % 10)]

/-- Zero-padded four-digit decimal rendering; agrees with `strftime` `%Y` for
the years `datetime.utcnow()` can return (1000–9999). -/
def pad4 (n : Nat) : Str :=
  [digitChar (n / 1000 % 10), digitChar (n / 100 % 10),
   digitChar (n / 10 % 10), digitChar (n % 10)]

/-- The UTC wall-clock instant observed by `datetime.utcnow()`. -/
structure DateTimeUTC where
  year : Nat
  month : Nat
  day : Nat
  hour : Nat
  minute : Nat
  second : Nat

/-- `datetime.utcnow().strftime("%Y%m%d%H%M%S")`: the 14-character timestamp. -/
def strftime14 (d : DateTimeUTC) : Str :=
  pad4 d.year ++ pad2 d.month ++ pad2 d.day ++ pad2 d.hour ++ pad2 d.minute ++ pad2 d.second

/-- UTF-8 encoding of one scalar value (what `str.encode("utf-8")` emits per
character). -/
def utf8Bytes (c : Char) : List Nat :=
  if c.toNat < 0x80 then [c.toNat]
  else if c.toNat < 0x800 then
    [0xc0 + c.toNat / 0x40, 0x80 + c.toNat % 0x40]
  else if c.toNat < 0x10000 then
    [0xe0 + c.toNat / 0x1000, 0x80 + c.toNat / 0x40 % 0x40, 0x80 + c.toNat % 0x40]
  else
    [0xf0 + c.toNat / 0x40000, 0x80 + c.toNat / 0x1000 % 0x40,
     0x80 + c.toNat / 0x40 % 0x40, 0x80 + c.toNat % 0x40]

/-- Python `str.encode("utf-8")`. -/
def utf8Encode (s : Str) : List Nat :=
  (s.map utf8Bytes).flatten

/-- Boolean prefix test (also used to model the anchored `re.sub` of
`textwrap.dedent` below). -/
def isPre : Str → Str → Bool
  | [], _ => true
  | _ :: _, [] => false
  | a :: as, b :: bs => a = b && isPre as bs

/-- Boolean substring test (`needle in hay` on Python strings), executable
with shallow recursion; `strContainsB_iff` below relates it to `<:+:`. -/
def strContainsB (hay needle : Str) : Bool :=
  match hay with
  | [] => needle.isEmpty
  | _ :: t => isPre needle hay || strContainsB t needle

/-- Boolean suffix test; `strEndsWithB_iff` below relates it to `<:+`. -/
def strEndsWithB (hay needle : Str) : Bool :=
  isPre needle.reverse hay.reverse

/-! ## JSON values and Python exceptions -/

/-- JSON values as `resp.json()` produces them (`dict` modelled as an
association list; `json.loads` yields unique keys, looked up first-match). -/
inductive JVal where
  | null
  | bool (b : Bool)
  | num (n : Int)
  | str (s : Str)
  | arr (items : List JVal)
  | obj (fields : List (Str × JVal))

/-- First-match association-list lookup, as Python `dict` access. -/
def jLookup (k : Str) : List (Str × JVal) → Option JVal
  | [] => none
  | (k', v) :: rest => if k' = k then some v else jLookup k rest

/-- The Python exceptions relevant to `call_gemini_api`:
`requests.exceptions.RequestException` (and its subclasses, including
`HTTPError` from `raise_for_status` and the JSON decode error of
`resp.json()` in requests ≥ 2.27) versus every other `Exception`
(`AttributeError`, `IndexError`, `TypeError`, `KeyError`, ...). -/
inductive PyExc where
  | requestException (msg : Str)
  | otherException (msg : Str)

/-- Message text of an exception, as `str(e)` renders it. -/
def pyExcMsg : PyExc → Str
  | .requestException m => m
  | .otherException m => m

/-- Python `v.get(k, d)`: succeeds on a `dict` (absent key gives the default),
raises `AttributeError` on any other value. -/
def pyGet (v : JVal) (k : Str) (d : JVal) : Except PyExc JVal :=
  match v with
  | JVal.obj fields => Except.ok ((jLookup k fields).getD d)
  | _ => Except.error (PyExc.otherException ("AttributeError".data))

/-- Python `v[i]` for a natural index: succeeds on a list that is long enough,
raises otherwise.  (Indexing a non-list either raises directly or yields a
value on which the following `.get` raises `AttributeError`; both cases end in
the `except Exception` arm of `call_gemini_api`, so the collapsed model below
is behaviourally faithful at the function boundary.) -/
def pyIndex (v : JVal) (i : Nat) : Except PyExc JVal :=
  match v with
  | JVal.arr items =>
    match items.get? i with
    | some x => Except.ok x
    | none => Except.error (PyExc.otherException ("IndexError".data))
  | _ => Except.error (PyExc.otherException ("TypeError".data))

/-! ## The External Generation Client: `call_gemini_api` (app.py lines 33-59) -/

/-- What happens at `requests.post(...)`: either the library raises a
`RequestException` (connection error, timeout, ...), or a response arrives
with a status code and a body whose JSON parse may itself fail. -/
inductive NetOutcome where
  | raiseRequestException (msg : Str)
  | response (status : Nat) (body : Except Str JVal)

/-- `resp.raise_for_status()`: raises `HTTPError` for 4xx/5xx status codes. -/
def raise_for_status (status : Nat) : Except PyExc Unit :=
  if 400 ≤ status ∧ status < 600 then
    Except.error (PyExc.requestException ("HTTPError".data))
  else
    Except.ok ()

/-- The JSON payload `{contents: [{parts: [{text: prompt}]}]}` built by
`call_gemini_api`. -/
def geminiPayload (prompt : Str) : JVal :=
  JVal.obj [("contents".data,
    JVal.arr [JVal.obj [("parts".data,
      JVal.arr [JVal.obj [("text".data, JVal.str prompt)]])]])]

/-- The placeholder returned when any level of the response nesting is absent. -/
def noResponseText : Str := "[No response text found]".data

/-- The extraction chain
`j.get("candidates", [{}])[0].get("content", {}).get("parts", [{}])[0].get("text", "[No response text found]")`
with Python exception behaviour made explicit. -/
def extractText (j : JVal) : Except PyExc JVal := do
  let cands ← pyGet j ("candidates".data) (JVal.arr [JVal.obj []])
  let c0 ← pyIndex cands 0
  let content ← pyGet c0 ("content".data) (JVal.obj [])
  let parts ← pyGet content ("parts".data) (JVal.arr [JVal.obj []])
  let p0 ← pyIndex parts 0
  pyGet p0 ("text".data) (JVal.str noResponseText)

/-- The body of the `try:` block of `call_gemini_api`: post the payload,
check the status, parse the body, extract the text. -/
def geminiTry (outcome : NetOutcome) : Except PyExc JVal := do
  match outcome with
  | NetOutcome.raiseRequestException m =>
    Except.error (PyExc.requestException m)
  | NetOutcome.response status body => do
    raise_for_status status
    match body with
    | Except.error m => Except.error (PyExc.requestException m)
    | Except.ok j => extractText j

/-- The error string returned when no API key is configured. -/
def noKeyMsg : Str := "[ERROR] Gemini API key not found. Please check your .env file.".data

/-- `call_gemini_api(prompt)` (app.py lines 33-59).  `apiKey` is the
`GEMINI_API_KEY` configuration value (empty string when unset); `net` is the
behaviour of the remote endpoint as a function of the posted payload.  The
result pairs the returned Python value with a flag recording whether
`requests.post` was executed; the outer `Except` is the exception channel of
the caller, and both `except` arms of the source convert every exception into
an in-band string, so the result is always `Except.ok`. -/
def call_gemini_api (apiKey prompt : Str) (net : JVal → NetOutcome) :
    Except PyExc (JVal × Bool) :=
  if apiKey = [] then
    Except.ok (JVal.str noKeyMsg, false)
  else
    match geminiTry (net (geminiPayload prompt)) with
    | Except.ok v => Except.ok (v, true)
    | Except.error (PyExc.requestException m) =>
      Except.ok (JVal.str (("[Error calling AI service] ".data) ++ m), true)
    | Except.error (PyExc.otherException m) =>
      Except.ok (JVal.str (("[Unexpected error] ".data) ++ m), true)

/-! ## The Context Loader: `load_local_context` (app.py lines 25-31) -/

/-- The state of the bundled `stories.txt` resource: absent, readable with
the given text, or present but failing to read/decode (in which case `open`
or `read` raises an `OSError`/`UnicodeDecodeError`, modelled as an
`otherException` with the interpreter's message). -/
inductive FileState where
  | absent
  | content (text : Str)
  | unreadable (msg : Str)

/-- `load_local_context(n_lines)` (app.py lines 25-31): empty string when the
file does not exist, otherwise the first `n_lines` lines of the
whitespace-stripped file text joined by newlines.  The function installs no
exception handler, so a read failure propagates to the caller. -/
def load_local_context (fs : FileState) (n_lines : Nat) : Except PyExc Str :=
  match fs with
  | FileState.absent => Except.ok []
  | FileState.content text =>
    Except.ok (joinNl ((pySplitlines (pyStrip text)).take n_lines))
  | FileState.unreadable msg => Except.error (PyExc.otherException msg)

/-! ## `textwrap.dedent` (CPython's algorithm)

`dedent` first blanks out whitespace-only lines (`^[ \t]+$` → empty), then
computes the longest common prefix of the `[ \t]*` indents of all lines that
contain a non-whitespace character, and finally removes that margin from the
start of every line on which it occurs. -/

/-- Whitespace in the sense of `textwrap.dedent`: space or tab. -/
def isDedentWs (c : Char) : Bool :=
  c = ' ' || c = '\t'

/-- A line matched by `^[ \t]+$`: nonempty and all spaces/tabs. -/
def wsOnly (l : Str) : Bool :=
  !l.isEmpty && l.all isDedentWs

/-- The normalisation pass of `dedent`: whitespace-only lines become empty. -/
def normLine (l : Str) : Str :=
  if wsOnly l then [] else l

/-- The `[ \t]*` indent of a line. -/
def lineIndent (l : Str) : Str :=
  l.takeWhile isDedentWs

/-- Longest common prefix of two character lists (the margin-update loop of
`dedent` computes exactly this). -/
def lcp : Str → Str → Str
  | a :: as, b :: bs => if a = b then a :: lcp as bs else []
  | _, _ => []

/-- The common margin of a normalised line list: fold of `lcp` over the
indents of the lines that have content. -/
def marginOf (lines : List Str) : Str :=
  match (lines.filter (fun l => !l.isEmpty)).map lineIndent with
  | [] => []
  | i :: is => is.foldl lcp i

/-- Remove the margin from a line on which it occurs (`(?m)^margin` → empty). -/
def stripMargin (m l : Str) : Str :=
  if isPre m l then l.drop m.length else l

/-- The normalised line list of a text (split at newlines, whitespace-only
lines blanked). -/
def dedentLines (t : Str) : List Str :=
  (splitChar '\n' t).map normLine

/-- `textwrap.dedent(t)`. -/
def pyDedent (t : Str) : Str :=
  let lines := dedentLines t
  joinNl (lines.map (stripMargin (marginOf lines)))

/-! ## The Prompt Builder: `construct_prompt` (app.py lines 61-81) -/

/-- Four spaces: the indentation of every template line of the f-string. -/
def sp4 : Str := "    ".data

/-- Template line 2 of the prompt f-string. -/
def lYou : Str :=
  sp4 ++ "You are an AI assistant that writes short, clear, actionable cybersecurity policies for informal microbusinesses.".data

/-- Template line 3: `Target user: {business}. Digital tools used: {tools}.` -/
def lTarget (business tools : Str) : Str :=
  sp4 ++ "Target user: ".data ++ business ++ ". Digital tools used: ".data ++ tools ++ ".".data

/-- Template line 4 (note the trailing space, present in the source). -/
def lLocalHdr : Str :=
  sp4 ++ "Local context examples (do not reveal personally identifying info): ".data

/-- Template line 7: `User-stated concerns: {concerns}`. -/
def lConcerns (concerns : Str) : Str :=
  sp4 ++ "User-stated concerns: ".data ++ concerns

/-- Template line 9. -/
def lProduce : Str := sp4 ++ "Produce:".data

/-- Template line 10. -/
def lP1 : Str := sp4 ++ "1) A short policy title (one line).".data

/-- Template line 11. -/
def lP2 : Str := sp4 ++ "2) A 6-12 point actionable policy list (each item one sentence; no jargon).".data

/-- Template line 12. -/
def lP3 : Str := sp4 ++ "3) A short \x27Why this matters\x27 paragraph (1-2 sentences).".data

/-- Template line 13. -/
def lP4 : Str := sp4 ++ "4) Simple implementation checklist (3 items).".data

/-- Template line 14. -/
def lKeep : Str := sp4 ++ "Keep language simple and concise for low-literacy users. Use imperative tone: \x27Do this\x27, \x27Avoid that\x27.".data

/-- Template line 15. -/
def lFormat : Str := sp4 ++ "Format output as plain text with clear sections.".data

/-- The f-string of `construct_prompt` after interpolation and before
`textwrap.dedent`: a newline, then the fifteen template lines above (with the
interpolated values in place and empty lines 5-is-context, 6, 8 as in the
source), ending in a newline and the four-space indent of the closing
`\"\"\"`.  `promptBody_transcription` below checks this transcription
character-for-character against the literal text of app.py lines 65-80. -/
def promptBody (business tools local_context concerns : Str) : Str :=
  '\n' :: (lYou ++ '\n' ::
    (lTarget business tools ++ '\n' ::
      (lLocalHdr ++ '\n' ::
        ((sp4 ++ local_context) ++ '\n' ::
          ('\n' ::
            (lConcerns concerns ++ '\n' ::
              ('\n' ::
                (lProduce ++ '\n' ::
                  (lP1 ++ '\n' ::
                    (lP2 ++ '\n' ::
                      (lP3 ++ '\n' ::
                        (lP4 ++ '\n' ::
                          (lKeep ++ '\n' ::
                            (lFormat ++ '\n' :: sp4))))))))))))))

/-- The `user_input` dict built by `generate` (all three keys are always
present there; the `.get` defaults of `construct_prompt` are still modelled). -/
structure UserInput where
  business_type : Option Str
  tools : Option Str
  concerns : Option Str

/-- The default phrase substituted for empty concerns. -/
def defaultConcerns : Str := "general protection against scams and fraud".data

/-- `construct_prompt(user_input, local_context)` (app.py lines 61-81):
read the three fields with their `dict.get` defaults, replace falsy concerns
by the default phrase (`... or "general protection..."`), interpolate into
the f-string and dedent. -/
def construct_prompt (user_input : UserInput) (local_context : Str) : Str :=
  let business := user_input.business_type.getD ("Informal vendor".data)
  let tools := user_input.tools.getD ("WhatsApp / Mobile money".data)
  let concerns :=
    match user_input.concerns.getD [] with
    | [] => defaultConcerns
    | c => c
  pyDedent (promptBody business tools local_context concerns)

/-! ## The Request Handler: `POST /generate` (app.py lines 87-138) -/

/-- The form fields of a `POST /generate` request; `none` models an absent
field (`request.form.get(name, "")` then yields the empty default). -/
structure GenForm where
  business_type : Option Str
  tools : Option Str
  concerns : Option Str

/-- The process environment of a request: the configured API key, the state
of `stories.txt`, the behaviour of the remote generation endpoint, and the
current UTC time. -/
structure GenEnv where
  apiKey : Str
  storiesFile : FileState
  net : JVal → NetOutcome
  now : DateTimeUTC

/-- The fixed two-value business-type allow-list (app.py line 94). -/
def allowed_types : List Str :=
  ["whatsapp vendor".data, "street trader".data]

/-- The fixed recognized-tool allow-list (app.py line 100). -/
def valid_tools : List Str :=
  ["whatsapp".data, "pos".data, "paystack".data,
   "bank transfer".data, "bank app".data, "mobile money".data]

/-- The `flash(...)` warning issued on an unsupported business type. -/
def rejectWarning : Str :=
  "⚠️ This tool only supports WhatsApp Vendors and Street Traders. No policy generated.".data

/-- The advisory note appended to the prompt when unrecognized tools are
present (app.py lines 117-120; the source concatenates two string literals). -/
def extraNote : Str :=
  ("\n\nNote: Some tools provided are not recognized as digital payment or communication tools. ".data)
    ++ "Based on your business type, consider using verified digital tools such as WhatsApp, POS systems, Paystack, or Bank Transfers for safer operations.".data

/-- `tool_list`: split the (already stripped and lowercased) tools string on
commas, strip each entry, drop the empties (app.py line 101). -/
def toolEntries (tools : Str) : List Str :=
  ((splitChar ',' tools).map pyStrip).filter (fun t => t ≠ [])

/-- `unrecognized`: the entries of `tool_list` outside `valid_tools`
(app.py line 102). -/
def unrecognizedOf (tools : Str) : List Str :=
  (toolEntries tools).filter (fun t => t ∉ valid_tools)

/-- The rendering of a request: either a redirect back to the input form with
a flashed warning, or the rendered `result.html` payload. -/
inductive GenResult where
  | rejected (flashMsg flashCategory : Str)
  | completed (promptSent : Str) (policy : JVal) (filename : Str)
      (business_type tools concerns : Str)

/-- `business_type = request.form.get("business_type", "").strip().lower()`
(app.py line 89). -/
def btOf (form : GenForm) : Str :=
  pyLower (pyStrip (form.business_type.getD []))

/-- `tools = request.form.get("tools", "").strip().lower()` (app.py line 90). -/
def toolsOf (form : GenForm) : Str :=
  pyLower (pyStrip (form.tools.getD []))

/-- `concerns = request.form.get("concerns", "").strip()` (app.py line 91). -/
def concernsOf (form : GenForm) : Str :=
  pyStrip (form.concerns.getD [])

/-- The prompt `generate` sends for a validated request, given the loaded
context: `construct_prompt` on `{business_type.title(), tools, concerns}`,
with the advisory `extra_note` appended when `unrecognized` is nonempty
(app.py lines 107-121). -/
def promptFor (form : GenForm) (local_context : Str) : Str :=
  let basePrompt := construct_prompt
    ⟨some (pyTitle (btOf form)), some (toolsOf form), some (concernsOf form)⟩
    local_context
  if unrecognizedOf (toolsOf form) = [] then basePrompt else basePrompt ++ extraNote

/-- `policy_text`: the result of `call_gemini_api` under the handler's
`try/except` (app.py lines 123-126; `call_gemini_api` never actually raises,
so the `except` arm is dead code, modelled anyway). -/
def policyFor (form : GenForm) (env : GenEnv) (local_context : Str) : JVal :=
  match call_gemini_api env.apiKey (promptFor form local_context) env.net with
  | Except.ok (v, _) => v
  | Except.error e => JVal.str (("[Error calling AI service] ".data) ++ pyExcMsg e)

/-- `filename = f"policy_{business_type.replace(' ', '_')}_{timestamp}.txt"`
(app.py lines 128-129). -/
def filenameFor (form : GenForm) (env : GenEnv) : Str :=
  ("policy_".data) ++ pyReplaceSpaceUnderscore (btOf form) ++ ("_".data)
    ++ strftime14 env.now ++ (".txt".data)

/-- The `generate()` view function (app.py lines 87-138), with the
straight-line body after validation factored into the pure pieces above.
The paired `Bool` records whether `call_gemini_api` was invoked.  The outer
`Except` is the handler's exception channel: the only uncaught operation is
`load_local_context` (the API call sits in its own `try/except`). -/
def generate (form : GenForm) (env : GenEnv) : Except PyExc (GenResult × Bool) :=
  if btOf form ∉ allowed_types then
    Except.ok (GenResult.rejected rejectWarning ("danger".data), false)
  else
    match load_local_context env.storiesFile 20 with
    | Except.error e => Except.error e
    | Except.ok local_context =>
      Except.ok
        (GenResult.completed (promptFor form local_context)
          (policyFor form env local_context) (filenameFor form env)
          (btOf form) (toolsOf form) (concernsOf form),
         true)

/-! ## The Download Handler: `POST /download` (app.py lines 141-148) -/

/-- The form fields of a `POST /download` request. -/
structure DownloadForm where
  policy_text : Option Str
  filename : Option Str

/-- The `send_file` response: the streamed bytes, the attachment flag, the
download name and the MIME type. -/
structure FileResponse where
  body : List Nat
  as_attachment : Bool
  download_name : Str
  mimetype : Str

/-- The `download()` view function (app.py lines 141-148): UTF-8-encode the
submitted policy text into a memory buffer and stream it back under the
submitted filename (or a timestamped default when the field is absent) as a
`text/plain` attachment. -/
def download (form : DownloadForm) (now : DateTimeUTC) : FileResponse :=
  let policy_text := form.policy_text.getD []
  let filename := form.filename.getD
    (("policy_".data) ++ strftime14 now ++ (".txt".data))
  { body := utf8Encode policy_text
    as_attachment := true
    download_name := filename
    mimetype := "text/plain".data }

/-! ## Concrete instances used in the analysis -/

/-- The success JSON body shape
`{candidates: [{content: {parts: [{text: s}]}}]}`. -/
def successBody (s : Str) : JVal :=
  JVal.obj [("candidates".data,
    JVal.arr [JVal.obj [("content".data,
      JVal.obj [("parts".data,
        JVal.arr [JVal.obj [("text".data, JVal.str s)]])])]])]

/-- A concrete `POST /generate` request: a valid business type written in
mixed case, the single tools entry `POS`, empty concerns. -/
def cexForm : GenForm :=
  ⟨some ("Whatsapp Vendor".data), some ("POS".data), some []⟩

/-- A concrete environment: no API key, no `stories.txt`, an unreachable
endpoint, a fixed clock. -/
def cexEnv : GenEnv :=
  ⟨[], FileState.absent, fun _ => NetOutcome.raiseRequestException [],
   ⟨2025, 1, 2, 3, 4, 5⟩⟩

/-- A concrete valid request with newline-free tools and concerns, used by
witnesses. -/
def wForm : GenForm :=
  ⟨some ("Street Trader ".data), some ("Paystack, POS".data), some ("theft".data)⟩

/-- A concrete valid request whose tool entries differ from recognized tools
only in letter case. -/
def wCaseForm : GenForm :=
  ⟨some ("whatsapp vendor".data), some ("WhatsApp, Mobile Money".data), none⟩

/-- The prompt recorded in a completed `generate` result, if any. -/
def promptOfResult (r : Except PyExc (GenResult × Bool)) : Option Str :=
  match r with
  | Except.ok (GenResult.completed p _ _ _ _ _, _) => some p
  | _ => none

/-- The transcription of the f-string is character-for-character the literal
of app.py lines 65-80 (checked here with placeholder interpolants). -/
theorem promptBody_transcription :
    promptBody ("BB".data) ("TT".data) ("CC".data) ("KK".data) =
      ("\n    You are an AI assistant that writes short, clear, actionable cybersecurity policies for informal microbusinesses.\n    Target user: BB. Digital tools used: TT.\n    Local context examples (do not reveal personally identifying info): \n    CC\n\n    User-stated concerns: KK\n\n    Produce:\n    1) A short policy title (one line).\n    2) A 6-12 point actionable policy list (each item one sentence; no jargon).\n    3) A short \x27Why this matters\x27 paragraph (1-2 sentences).\n    4) Simple implementation checklist (3 items).\n    Keep language simple and concise for low-literacy users. Use imperative tone: \x27Do this\x27, \x27Avoid that\x27.\n    Format output as plain text with clear sections.\n    ").data := by
  decide

example : pyDedent ("\n    a\n      b\n   \n    c\n    ".data) = "\na\n  b\n\nc\n".data := by
  decide

-- sanity checks of the machinery on concrete values
example : pyStrip (" a b \n".data) = "a b".data := by decide
example : pyLower ("AbC,".data) = "abc,".data := by decide
example : splitChar ',' ("a,,b".data) = ["a".data, [], "b".data] := by decide
example : pySplitlines ("a\r\nb\nc".data) = ["a".data, "b".data, "c".data] := by decide
example : pyTitle ("whatsapp vendor".data) = "Whatsapp Vendor".data := by decide
example : strftime14 ⟨2025, 3, 7, 9, 30, 5⟩ = "20250307093005".data := by decide
example : utf8Encode ("aé".data) = [97, 195, 169] := by decide
example : extractText (JVal.obj []) = Except.ok (JVal.str noResponseText) := by rfl
example : load_local_context (FileState.content ("x\ny\nz".data)) 2
    = Except.ok ("x\ny".data) := by rfl



/-! ## Helper lemmas: characters -/

/-- `Char.ofNat` of a valid codepoint has that codepoint. -/
theorem toNat_ofNat_valid {n : Nat} (h : n.isValidChar) : (Char.ofNat n).toNat = n := by
  simp [Char.ofNat, h, Char.ofNatAux, Char.toNat, UInt32.toNat, BitVec.toNat_ofNatLt]

/-- Characters with equal codepoints are equal. -/
theorem char_toNat_inj {a b : Char} (h : a.toNat = b.toNat) : a = b := by
  apply Char.eq_of_val_eq
  exact UInt32.toNat.inj h

/-- `Char.toLower` moves nothing onto a character below `A` (codepoint < 65),
so equality with such a character is unaffected by lowering. -/
theorem toLower_eq_small {c X : Char} (hX : X.toNat < 65) : c.toLower = X ↔ c = X := by
  by_cases hin : c.toNat ≥ 65 ∧ c.toNat ≤ 90
  · have hv : (Char.ofNat (c.toNat + 32)).toNat = c.toNat + 32 := by
      apply toNat_ofNat_valid
      left
      omega
    simp only [Char.toLower, if_pos hin]
    constructor
    · intro h
      rw [h] at hv
      omega
    · intro h
      subst h
      omega
  · simp only [Char.toLower, if_neg hin]

/-- `Char.toUpper` likewise never produces a character below `A`. -/
theorem toUpper_eq_small {c X : Char} (hX : X.toNat < 65) : c.toUpper = X ↔ c = X := by
  by_cases hin : c.toNat ≥ 97 ∧ c.toNat ≤ 122
  · have hv : (Char.ofNat (c.toNat - 32)).toNat = c.toNat - 32 := by
      apply toNat_ofNat_valid
      left
      omega
    simp only [Char.toUpper, if_pos hin]
    constructor
    · intro h
      rw [h] at hv
      omega
    · intro h
      subst h
      omega
  · simp only [Char.toUpper, if_neg hin]

/-- Lowering is idempotent. -/
theorem toLower_idem (c : Char) : c.toLower.toLower = c.toLower := by
  by_cases hin : c.toNat ≥ 65 ∧ c.toNat ≤ 90
  · have hv : (Char.ofNat (c.toNat + 32)).toNat = c.toNat + 32 := by
      apply toNat_ofNat_valid
      left
      omega
    simp only [Char.toLower, if_pos hin]
    rw [if_neg]
    omega
  · simp only [Char.toLower, if_neg hin]

/-- Lowering preserves membership in the Python whitespace set. -/
theorem pyIsSpace_toLower (c : Char) : pyIsSpace c.toLower = pyIsSpace c := by
  have h1 : c.toLower = ' ' ↔ c = ' ' := toLower_eq_small (by decide)
  have h2 : c.toLower = '\t' ↔ c = '\t' := toLower_eq_small (by decide)
  have h3 : c.toLower = '\n' ↔ c = '\n' := toLower_eq_small (by decide)
  have h4 : c.toLower = '\r' ↔ c = '\r' := toLower_eq_small (by decide)
  have h5 : c.toLower = '\x0b' ↔ c = '\x0b' := toLower_eq_small (by decide)
  have h6 : c.toLower = '\x0c' ↔ c = '\x0c' := toLower_eq_small (by decide)
  simp only [pyIsSpace, h1, h2, h3, h4, h5, h6]

/-- Lowering preserves being a comma. -/
theorem toLower_eq_comma (c : Char) : (c.toLower = ',') ↔ (c = ',') :=
  toLower_eq_small (by decide)

/-- Lowering preserves being a newline. -/
theorem toLower_eq_nl (c : Char) : (c.toLower = '\n') ↔ (c = '\n') :=
  toLower_eq_small (by decide)

/-! ## Helper lemmas: prefix/suffix/substring bridges -/

/-- `isPre` decides list prefixhood. -/
theorem isPre_iff {p l : Str} : isPre p l = true ↔ p <+: l := by
  induction p generalizing l with
  | nil => simp [isPre]
  | cons a as ih =>
    cases l with
    | nil => simp [isPre]
    | cons b bs =>
      simp [isPre, ih, List.cons_prefix_cons, And.comm]

/-- `strEndsWithB` decides list suffixhood. -/
theorem strEndsWithB_iff {h n : Str} : strEndsWithB h n = true ↔ n <:+ h := by
  rw [strEndsWithB, isPre_iff, List.reverse_prefix]

/-- `strContainsB` decides list infixhood. -/
theorem strContainsB_iff {h n : Str} : strContainsB h n = true ↔ n <:+: h := by
  induction h with
  | nil => simp [strContainsB, List.isEmpty_iff, List.infix_nil]
  | cons c t ih =>
    simp [strContainsB, isPre_iff, ih, List.infix_cons_iff]

/-- A nonempty suffix fixes the last element. -/
theorem getLast?_of_suffix {xs ys : Str} (h : xs <:+ ys) (hx : xs ≠ []) :
    ys.getLast? = xs.getLast? := by
  obtain ⟨pre, rfl⟩ := h
  rw [List.getLast?_append]
  cases hlast : xs.getLast? with
  | none => exact absurd (List.getLast?_eq_none_iff.mp hlast) hx
  | some a => rfl

/-! ## Helper lemmas: `splitChar` and `joinNl` -/

/-- Splitting never yields an empty list of parts. -/
theorem splitChar_ne_nil (sep : Char) (s : Str) : splitChar sep s ≠ [] := by
  induction s with
  | nil => simp [splitChar]
  | cons c cs ih =>
    by_cases h : c = sep
    · simp [splitChar, h]
    · simp only [splitChar, if_neg h]
      cases hs : splitChar sep cs with
      | nil => exact absurd hs ih
      | cons l ls => simp

/-- A separator occurrence splits an append into independent splits. -/
theorem splitChar_append_sep (sep : Char) (xs ys : Str) :
    splitChar sep (xs ++ sep :: ys) = splitChar sep xs ++ splitChar sep ys := by
  induction xs with
  | nil => simp [splitChar]
  | cons c cs ih =>
    by_cases h : c = sep
    · simp [splitChar, h, ih]
    · obtain ⟨l, ls, hs⟩ : ∃ l ls, splitChar sep cs = l :: ls := by
        cases hcs : splitChar sep cs with
        | nil => exact absurd hcs (splitChar_ne_nil sep cs)
        | cons l ls => exact ⟨l, ls, rfl⟩
      simp [splitChar, if_neg h, ih, hs]

/-- A separator-free string is one part. -/
theorem splitChar_no_sep {sep : Char} {xs : Str} (h : sep ∉ xs) :
    splitChar sep xs = [xs] := by
  induction xs with
  | nil => rfl
  | cons c cs ih =>
    have hc : ¬ c = sep := fun hc => h (hc ▸ List.mem_cons_self c cs)
    have hcs : sep ∉ cs := fun hm => h (List.mem_cons_of_mem c hm)
    simp [splitChar, if_neg hc, ih hcs]

/-- A separator-free line followed by a separator is the first part. -/
theorem splitChar_line {sep : Char} {xs : Str} (h : sep ∉ xs) (ys : Str) :
    splitChar sep (xs ++ sep :: ys) = xs :: splitChar sep ys := by
  rw [splitChar_append_sep, splitChar_no_sep h]
  rfl

/-- Splitting at a leading separator. -/
theorem splitChar_cons_sep (sep : Char) (ys : Str) :
    splitChar sep (sep :: ys) = [] :: splitChar sep ys := by
  simp [splitChar]

/-- `joinNl` on a list with at least two elements. -/
theorem joinNl_cons {l : Str} {ls : List Str} (h : ls ≠ []) :
    joinNl (l :: ls) = l ++ '\n' :: joinNl ls := by
  cases ls with
  | nil => exact absurd rfl h
  | cons a as => rfl

/-- An infix of a line is an infix of the joined text. -/
theorem infix_joinNl {x l : Str} {ls : List Str} (hl : l ∈ ls) (hx : x <:+: l) :
    x <:+: joinNl ls := by
  induction ls with
  | nil => cases hl
  | cons a as ih =>
    rcases List.mem_cons.mp hl with h | h
    · subst h
      cases as with
      | nil => simpa [joinNl] using hx
      | cons b bs =>
        rw [joinNl_cons (by simp)]
        exact List.IsInfix.trans hx (List.IsPrefix.isInfix (List.prefix_append _ _))
    · cases as with
      | nil => cases h
      | cons b bs =>
        rw [joinNl_cons (by simp)]
        refine List.IsInfix.trans (ih h) (List.IsSuffix.isInfix ?_)
        exact List.IsSuffix.trans (List.suffix_cons '\n' _) (List.suffix_append _ _)

/-- Appending a final empty line appends a final newline to the joined text. -/
theorem joinNl_concat_nil {ls : List Str} (h : ls ≠ []) :
    joinNl (ls ++ [[]]) = joinNl ls ++ ['\n'] := by
  induction ls with
  | nil => exact absurd rfl h
  | cons l as ih =>
    cases as with
    | nil => rfl
    | cons b bs =>
      rw [List.cons_append, joinNl_cons (by simp), joinNl_cons (by simp), ih (by simp)]
      simp

/-! ## Helper lemmas: the handler and the timestamp -/

/-- Unfolding of `generate` on a validated request with readable context. -/
theorem generate_eq_completed {form : GenForm} {env : GenEnv} {ctx : Str}
    (hb : btOf form ∈ allowed_types)
    (hload : load_local_context env.storiesFile 20 = Except.ok ctx) :
    generate form env = Except.ok
      (GenResult.completed (promptFor form ctx) (policyFor form env ctx)
        (filenameFor form env) (btOf form) (toolsOf form) (concernsOf form),
       true) := by
  simp [generate, hb, hload]

/-- `digitChar` of a value below ten is a decimal digit. -/
theorem digitChar_isDigit {n : Nat} (h : n < 10) : (digitChar n).isDigit = true := by
  interval_cases n <;> decide

/-- The timestamp has fourteen characters. -/
theorem strftime14_length (d : DateTimeUTC) : (strftime14 d).length = 14 := by
  simp [strftime14, pad4, pad2]

/-- Every character of the timestamp is a decimal digit. -/
theorem strftime14_digits (d : DateTimeUTC) : (strftime14 d).all Char.isDigit = true := by
  have hd : ∀ n : Nat, (digitChar (n % 10)).isDigit = true := fun n =>
    digitChar_isDigit (Nat.mod_lt _ (by decide))
  simp [strftime14, pad4, pad2, hd]

/-! ## Claim C1 -/

/-- C1: for every prompt, `call_gemini_api` never raises an exception to its
caller — every input (any key, any network behaviour) produces an `Except.ok`
result — and with no configured API key it returns a string prefixed with the
`[ERROR]` marker and performs no network call. -/
theorem C1_client_never_raises :
    (∀ (apiKey prompt : Str) (net : JVal → NetOutcome),
      ∃ v, call_gemini_api apiKey prompt net = Except.ok v) ∧
    (∀ (prompt : Str) (net : JVal → NetOutcome),
      ∃ s, call_gemini_api [] prompt net = Except.ok (JVal.str s, false) ∧
        ("[ERROR]".data) <+: s) := by
  constructor
  · intro apiKey prompt net
    by_cases h : apiKey = []
    · subst h
      exact ⟨_, rfl⟩
    · simp only [call_gemini_api, if_neg h]
      cases hg : geminiTry (net (geminiPayload prompt)) with
      | ok v => exact ⟨_, rfl⟩
      | error e =>
        cases e with
        | requestException m => exact ⟨_, rfl⟩
        | otherException m => exact ⟨_, rfl⟩
  · intro prompt net
    exact ⟨noKeyMsg, rfl, by decide⟩

/-! ## Claim C2 -/

/-- C2: a `POST /generate` whose trimmed, case-folded business type is outside
the two-value allow-list is rejected: the handler flashes the warning with
category `danger` and redirects, and `call_gemini_api` is never invoked (the
invocation flag of the result is `false`), whatever the environment. -/
theorem C2_invalid_business_rejected (form : GenForm) (env : GenEnv)
    (hb : btOf form ∉ allowed_types) :
    generate form env =
      Except.ok (GenResult.rejected rejectWarning ("danger".data), false) := by
  simp [generate, hb]

/-- C2 witness: the business type `bakery` is rejected without a client call. -/
theorem C2_witness :
    (btOf ⟨some ("bakery".data), some ("pos".data), none⟩ ∉ allowed_types) ∧
    generate ⟨some ("bakery".data), some ("pos".data), none⟩ cexEnv =
      Except.ok (GenResult.rejected rejectWarning ("danger".data), false) :=
  ⟨by decide, C2_invalid_business_rejected _ cexEnv (by decide)⟩

/-! ## Claim C4 -/

/-- C4: with a configured key, a well-formed success body yields exactly the
nested text value, and a body whose `candidates` key is absent yields the
literal placeholder `[No response text found]`. -/
theorem C4_success_extraction (key prompt s : Str) (hkey : key ≠ [])
    (fields : List (Str × JVal))
    (hfields : jLookup ("candidates".data) fields = none) :
    call_gemini_api key prompt
        (fun _ => NetOutcome.response 200 (Except.ok (successBody s)))
      = Except.ok (JVal.str s, true) ∧
    call_gemini_api key prompt
        (fun _ => NetOutcome.response 200 (Except.ok (JVal.obj fields)))
      = Except.ok (JVal.str noResponseText, true) := by
  constructor
  · unfold call_gemini_api
    rw [if_neg hkey]
    rfl
  · have h1 : extractText (JVal.obj fields) = Except.ok (JVal.str noResponseText) := by
      unfold extractText
      unfold pyGet
      simp only [hfields]
      rfl
    have h2 : geminiTry (NetOutcome.response 200 (Except.ok (JVal.obj fields)))
        = Except.ok (JVal.str noResponseText) := h1
    unfold call_gemini_api
    rw [if_neg hkey]
    simp only [h2]

/-- C4 witness: concrete key, text and an empty body object. -/
theorem C4_witness :
    (("k".data : Str) ≠ [] ∧ jLookup ("candidates".data) [] = none) ∧
    (call_gemini_api ("k".data) ("p".data)
        (fun _ => NetOutcome.response 200 (Except.ok (successBody ("hello".data))))
      = Except.ok (JVal.str ("hello".data), true) ∧
    call_gemini_api ("k".data) ("p".data)
        (fun _ => NetOutcome.response 200 (Except.ok (JVal.obj [])))
      = Except.ok (JVal.str noResponseText, true)) :=
  ⟨⟨by decide, rfl⟩, C4_success_extraction ("k".data) ("p".data) ("hello".data)
    (by decide) [] rfl⟩

/-! ## Claim C6 (corrected) -/

/-- C6 counterexample: the claim asserts that no exception ever propagates out
of the context loader and that any read failure degrades to the empty string;
but on a present-yet-unreadable resource the code has no handler, so the
read failure propagates as an exception instead of producing `ok ""`. -/
theorem C6_counterexample :
    (load_local_context (FileState.unreadable ("PermissionError".data)) 10).isOk
      = false := rfl

/-- C6 amended: `load_local_context(max_lines)` returns the first `max_lines`
lines of the stripped resource text joined by newline when the resource exists
and is readable, the empty string when the resource is missing, and a read
failure on an existing resource is not caught — it propagates as an
exception. -/
theorem C6_amended :
    (∀ n, load_local_context FileState.absent n = Except.ok []) ∧
    (∀ text n, load_local_context (FileState.content text) n
      = Except.ok (joinNl ((pySplitlines (pyStrip text)).take n))) ∧
    (∀ msg n, load_local_context (FileState.unreadable msg) n
      = Except.error (PyExc.otherException msg)) :=
  ⟨fun _ => rfl, fun _ _ => rfl, fun _ _ => rfl⟩

/-! ## Claim C8 -/

/-- C8: `POST /download` streams back exactly the UTF-8 bytes of the submitted
`policy_text`, under the submitted filename, as an attachment with the fixed
`text/plain` content type; the content is not transformed. -/
theorem C8_download_exact (policy_text filename : Str) (now : DateTimeUTC) :
    download ⟨some policy_text, some filename⟩ now =
      { body := utf8Encode policy_text
        as_attachment := true
        download_name := filename
        mimetype := "text/plain".data } := rfl

/-! ## Claim C9 -/

/-- C9: when the `filename` field is absent from a `POST /download`, the
handler substitutes the server-derived default `policy_<14-digit UTC
timestamp>.txt` instead of failing or sending an unnamed attachment. -/
theorem C9_download_default_filename (policy_text : Option Str) (now : DateTimeUTC) :
    ∃ ts, (download ⟨policy_text, none⟩ now).download_name =
        ("policy_".data) ++ ts ++ (".txt".data) ∧
      ts.length = 14 ∧ ts.all Char.isDigit = true :=
  ⟨strftime14 now, rfl, strftime14_length now, strftime14_digits now⟩

/-! ## Claim C7 -/

/-- C7: every completed `/generate` request derives a filename of the form
`policy_<business type with spaces replaced by underscores>_<14-digit UTC
timestamp>.txt`. -/
theorem C7_filename_pattern (form : GenForm) (env : GenEnv) (ctx : Str)
    (hb : btOf form ∈ allowed_types)
    (hload : load_local_context env.storiesFile 20 = Except.ok ctx) :
    ∃ policy ts,
      generate form env = Except.ok
        (GenResult.completed (promptFor form ctx) policy
          (("policy_".data) ++ pyReplaceSpaceUnderscore (btOf form) ++ ("_".data)
            ++ ts ++ (".txt".data))
          (btOf form) (toolsOf form) (concernsOf form), true) ∧
      ts.length = 14 ∧ ts.all Char.isDigit = true := by
  refine ⟨policyFor form env ctx, strftime14 env.now, ?_,
    strftime14_length _, strftime14_digits _⟩
  rw [generate_eq_completed hb hload]
  rfl

/-- C7 witness: a concrete completed request. -/
theorem C7_witness :
    (btOf cexForm ∈ allowed_types ∧
      load_local_context cexEnv.storiesFile 20 = Except.ok []) ∧
    (∃ policy ts,
      generate cexForm cexEnv = Except.ok
        (GenResult.completed (promptFor cexForm []) policy
          (("policy_".data) ++ pyReplaceSpaceUnderscore (btOf cexForm) ++ ("_".data)
            ++ ts ++ (".txt".data))
          (btOf cexForm) (toolsOf cexForm) (concernsOf cexForm), true) ∧
      ts.length = 14 ∧ ts.all Char.isDigit = true) :=
  ⟨⟨by decide, rfl⟩, C7_filename_pattern cexForm cexEnv [] (by decide) rfl⟩

/-! ## Helper lemmas: the dedented prompt always ends in a newline -/

/-- Stripping a margin from the empty line gives the empty line. -/
theorem stripMargin_nil (m : Str) : stripMargin m [] = [] := by
  cases m <;> simp [stripMargin, isPre]

/-- The dedented interpolated template always ends with a newline (the last
template line consists of the four spaces before the closing quotes, which
normalise to an empty final line). -/
theorem dedent_promptBody_getLast (b t c k : Str) :
    (pyDedent (promptBody b t c k)).getLast? = some '\n' := by
  obtain ⟨A, hA⟩ : ∃ A, promptBody b t c k = A ++ '\n' :: sp4 :=
    ⟨'\n' :: (lYou ++ '\n' :: (lTarget b t ++ '\n' :: (lLocalHdr ++ '\n' ::
      ((sp4 ++ c) ++ '\n' :: ('\n' :: (lConcerns k ++ '\n' :: ('\n' ::
        (lProduce ++ '\n' :: (lP1 ++ '\n' :: (lP2 ++ '\n' :: (lP3 ++ '\n' ::
          (lP4 ++ '\n' :: (lKeep ++ '\n' :: lFormat))))))))))))),
     by simp [promptBody, List.append_assoc]⟩
  have hsp : ('\n') ∉ sp4 := by decide
  have hnorm : normLine sp4 = [] := by decide
  unfold pyDedent dedentLines
  rw [hA, splitChar_append_sep, splitChar_no_sep hsp]
  simp only [List.map_append, List.map_cons, List.map_nil, hnorm, stripMargin_nil]
  rw [joinNl_concat_nil]
  · exact List.getLast?_concat _
  · simp [splitChar_ne_nil]

/-- The advisory note is never a suffix of the bare dedented template (their
last characters differ). -/
theorem extraNote_not_suffix_dedent (b t c k : Str) :
    ¬ (extraNote <:+ pyDedent (promptBody b t c k)) := by
  intro h
  have h1 : (pyDedent (promptBody b t c k)).getLast? = extraNote.getLast? :=
    getLast?_of_suffix h (by decide)
  rw [dedent_promptBody_getLast] at h1
  have h2 : extraNote.getLast? = some '.' := by decide
  rw [h2] at h1
  injection h1 with h3
  exact absurd h3 (by decide)

/-- `construct_prompt` is a dedented interpolated template for some values of
the interpolants. -/
theorem construct_prompt_eq (ui : UserInput) (ctx : Str) :
    ∃ B T K, construct_prompt ui ctx = pyDedent (promptBody B T ctx K) :=
  ⟨_, _, _, rfl⟩

/-! ## Claim C3 -/

/-- C3: on every validated request the prompt sent to the client ends with the
advisory clause precisely when the comma-split, trimmed, nonempty tool entries
contain one outside the recognized-tool allow-list. -/
theorem C3_advisory_iff (form : GenForm) (env : GenEnv) (ctx : Str)
    (hb : btOf form ∈ allowed_types)
    (hload : load_local_context env.storiesFile 20 = Except.ok ctx) :
    ∃ policy,
      generate form env = Except.ok
        (GenResult.completed (promptFor form ctx) policy (filenameFor form env)
          (btOf form) (toolsOf form) (concernsOf form), true) ∧
      ((extraNote <:+ promptFor form ctx) ↔ unrecognizedOf (toolsOf form) ≠ []) := by
  refine ⟨policyFor form env ctx, generate_eq_completed hb hload, ?_⟩
  by_cases hu : unrecognizedOf (toolsOf form) = []
  · simp only [promptFor, if_pos hu]
    constructor
    · intro h
      obtain ⟨B, T, K, heq⟩ := construct_prompt_eq
        ⟨some (pyTitle (btOf form)), some (toolsOf form), some (concernsOf form)⟩ ctx
      rw [heq] at h
      exact absurd h (extraNote_not_suffix_dedent B T ctx K)
    · intro h
      exact absurd hu h
  · simp only [promptFor, if_neg hu]
    constructor
    · intro _
      exact hu
    · intro _
      exact List.suffix_append _ _

/-- C3 witness: the spec's own example request (`whatsapp vendor` with tools
`whatsapp, unknown_tool`). -/
theorem C3_witness :
    (btOf ⟨some ("whatsapp vendor".data), some ("whatsapp, unknown_tool".data), none⟩
        ∈ allowed_types ∧
      load_local_context cexEnv.storiesFile 20 = Except.ok []) ∧
    (∃ policy,
      generate ⟨some ("whatsapp vendor".data), some ("whatsapp, unknown_tool".data), none⟩
          cexEnv = Except.ok
        (GenResult.completed
          (promptFor ⟨some ("whatsapp vendor".data), some ("whatsapp, unknown_tool".data), none⟩ [])
          policy
          (filenameFor ⟨some ("whatsapp vendor".data), some ("whatsapp, unknown_tool".data), none⟩ cexEnv)
          (btOf ⟨some ("whatsapp vendor".data), some ("whatsapp, unknown_tool".data), none⟩)
          (toolsOf ⟨some ("whatsapp vendor".data), some ("whatsapp, unknown_tool".data), none⟩)
          (concernsOf ⟨some ("whatsapp vendor".data), some ("whatsapp, unknown_tool".data), none⟩),
         true) ∧
      ((extraNote <:+
          promptFor ⟨some ("whatsapp vendor".data), some ("whatsapp, unknown_tool".data), none⟩ [])
        ↔ unrecognizedOf
            (toolsOf ⟨some ("whatsapp vendor".data), some ("whatsapp, unknown_tool".data), none⟩)
          ≠ [])) :=
  ⟨⟨by decide, rfl⟩,
   C3_advisory_iff ⟨some ("whatsapp vendor".data), some ("whatsapp, unknown_tool".data), none⟩
     cexEnv [] (by decide) rfl⟩

/-! ## Helper lemmas: the line structure of the interpolated template -/

/-- The interpolated `Target user` line contains no newline when neither
interpolant does. -/
theorem noNl_lTarget {b t : Str} (hb : ('\n') ∉ b) (ht : ('\n') ∉ t) :
    ('\n') ∉ lTarget b t := by
  intro h
  simp only [lTarget, List.mem_append] at h
  rcases h with ((((h | h) | h) | h) | h) | h
  · exact absurd h (by decide)
  · exact absurd h (by decide)
  · exact hb h
  · exact absurd h (by decide)
  · exact ht h
  · exact absurd h (by decide)

/-- The interpolated `User-stated concerns` line contains no newline when the
concerns value does not. -/
theorem noNl_lConcerns {k : Str} (hk : ('\n') ∉ k) : ('\n') ∉ lConcerns k := by
  intro h
  simp only [lConcerns, List.mem_append] at h
  rcases h with (h | h) | h
  · exact absurd h (by decide)
  · exact absurd h (by decide)
  · exact hk h

/-- Splitting the interpolated template at newlines: the fixed template lines
in order, with the (possibly multi-line) context block in the middle and the
final four-space line from the closing quotes. -/
theorem promptBody_lines (b t c k : Str) (hb : ('\n') ∉ b) (ht : ('\n') ∉ t)
    (hk : ('\n') ∉ k) :
    splitChar '\n' (promptBody b t c k) =
      [[], lYou, lTarget b t, lLocalHdr] ++ splitChar '\n' (sp4 ++ c) ++
      [[], lConcerns k, [], lProduce, lP1, lP2, lP3, lP4, lKeep, lFormat, sp4] := by
  unfold promptBody
  rw [splitChar_cons_sep]
  rw [splitChar_line (show ('\n') ∉ lYou from by decide)]
  rw [splitChar_line (noNl_lTarget hb ht)]
  rw [splitChar_line (show ('\n') ∉ lLocalHdr from by decide)]
  rw [splitChar_append_sep]
  rw [splitChar_cons_sep]
  rw [splitChar_line (noNl_lConcerns hk)]
  rw [splitChar_cons_sep]
  rw [splitChar_line (show ('\n') ∉ lProduce from by decide)]
  rw [splitChar_line (show ('\n') ∉ lP1 from by decide)]
  rw [splitChar_line (show ('\n') ∉ lP2 from by decide)]
  rw [splitChar_line (show ('\n') ∉ lP3 from by decide)]
  rw [splitChar_line (show ('\n') ∉ lP4 from by decide)]
  rw [splitChar_line (show ('\n') ∉ lKeep from by decide)]
  rw [splitChar_line (show ('\n') ∉ lFormat from by decide)]
  rw [splitChar_no_sep (show ('\n') ∉ sp4 from by decide)]
  simp

/-! ## Helper lemmas: the margin of the dedented template -/

/-- `lcp` yields a prefix of its first argument. -/
theorem lcp_prefix_left (a b : Str) : lcp a b <+: a := by
  induction a generalizing b with
  | nil => simp [lcp]
  | cons x xs ih =>
    cases b with
    | nil => exact List.nil_prefix
    | cons y ys =>
      by_cases h : x = y
      · simp only [lcp, if_pos h]
        exact List.cons_prefix_cons.mpr ⟨rfl, ih ys⟩
      · simp only [lcp, if_neg h]
        exact List.nil_prefix

/-- A fold of `lcp` yields a prefix of the start value. -/
theorem foldl_lcp_prefix (is : List Str) (a : Str) : is.foldl lcp a <+: a := by
  induction is generalizing a with
  | nil => exact List.prefix_refl a
  | cons i is ih => exact List.IsPrefix.trans (ih (lcp a i)) (lcp_prefix_left a i)

/-- The margin is a prefix of the indent of the first content line. -/
theorem marginOf_prefix {ls : List Str} {i : Str} {is : List Str}
    (h : (ls.filter (fun l => !l.isEmpty)).map lineIndent = i :: is) :
    marginOf ls <+: i := by
  unfold marginOf
  rw [h]
  exact foldl_lcp_prefix is i

/-- A line containing a non-space/tab character is not whitespace-only. -/
theorem wsOnly_false_of_mem {l : Str} {c : Char} (hc : c ∈ l)
    (h : isDedentWs c = false) : wsOnly l = false := by
  have hall : l.all isDedentWs = false := by
    rw [List.all_eq_false]
    exact ⟨c, hc, by simp [h]⟩
  simp [wsOnly, hall]

/-- Such a line survives normalisation unchanged. -/
theorem normLine_of_content {l : Str} {c : Char} (hc : c ∈ l)
    (h : isDedentWs c = false) : normLine l = l := by
  simp [normLine, wsOnly_false_of_mem hc h]

/-- Removing a margin that occurs drops exactly its length. -/
theorem stripMargin_eq_drop {m l : Str} (h : m <+: l) :
    stripMargin m l = l.drop m.length := by
  rw [stripMargin, if_pos (isPre_iff.mpr h)]

/-- If a line is `sp4 ++ core`, the margin is a prefix of `sp4`, and `x` is an
infix of `core`, then `x` survives into the dedented joined text whenever the
line is among the normalised lines. -/
theorem contains_of_line_member {x core : Str} {m : Str} {lines : List Str}
    (hmem : sp4 ++ core ∈ lines) (hm : m <+: sp4) (hx : x <:+: core) :
    x <:+: joinNl (lines.map (stripMargin m)) := by
  have hm_line : m <+: sp4 ++ core :=
    List.IsPrefix.trans hm (List.prefix_append sp4 core)
  have hj : m.length ≤ sp4.length := List.IsPrefix.length_le hm
  have hdrop : stripMargin m (sp4 ++ core) = sp4.drop m.length ++ core := by
    rw [stripMargin_eq_drop hm_line, List.drop_append_of_le_length hj]
  have hxin : x <:+: stripMargin m (sp4 ++ core) := by
    rw [hdrop]
    exact List.IsInfix.trans hx (List.IsSuffix.isInfix (List.suffix_append _ _))
  exact infix_joinNl (List.mem_map_of_mem _ hmem) hxin

/-- The dedented interpolated template contains each of the three interpolated
values verbatim (whatever the context block is), provided the values are free
of newlines — the business line, tools and concerns sit strictly inside their
template lines, and dedent only removes leading template whitespace. -/
theorem dedent_promptBody_contains (b t c k : Str) (hb : ('\n') ∉ b)
    (ht : ('\n') ∉ t) (hk : ('\n') ∉ k) :
    b <:+: pyDedent (promptBody b t c k) ∧
    t <:+: pyDedent (promptBody b t c k) ∧
    k <:+: pyDedent (promptBody b t c k) := by
  have hlines := promptBody_lines b t c k hb ht hk
  have hmemT : 'T' ∈ lTarget b t :=
    List.mem_append_left _ (List.mem_append_left _ (List.mem_append_left _
      (List.mem_append_left _ (List.mem_append_right _ (by decide)))))
  have hmemC : 'U' ∈ lConcerns k :=
    List.mem_append_left _ (List.mem_append_right _ (by decide))
  have hnT : normLine (lTarget b t) = lTarget b t :=
    normLine_of_content hmemT (by decide)
  have hnC : normLine (lConcerns k) = lConcerns k :=
    normLine_of_content hmemC (by decide)
  have h0 : normLine ([] : Str) = [] := by decide
  have hY : normLine lYou = lYou := by decide
  have hH : normLine lLocalHdr = lLocalHdr := by decide
  have hPr : normLine lProduce = lProduce := by decide
  have h1 : normLine lP1 = lP1 := by decide
  have h2 : normLine lP2 = lP2 := by decide
  have h3 : normLine lP3 = lP3 := by decide
  have h4 : normLine lP4 = lP4 := by decide
  have hKp : normLine lKeep = lKeep := by decide
  have hF : normLine lFormat = lFormat := by decide
  have hS : normLine sp4 = [] := by decide
  have hN : List.map normLine (splitChar '\n' (promptBody b t c k)) =
      [[], lYou, lTarget b t, lLocalHdr]
        ++ List.map normLine (splitChar '\n' (sp4 ++ c))
        ++ [[], lConcerns k, [], lProduce, lP1, lP2, lP3, lP4, lKeep, lFormat, []] := by
    rw [hlines]
    simp only [List.map_append, List.map_cons, List.map_nil, h0, hY, hnT, hH,
      hnC, hPr, h1, h2, h3, h4, hKp, hF, hS]
  have hYe : (!(lYou : Str).isEmpty) = true := by decide
  have hTe : (!(lTarget b t).isEmpty) = true := by rfl
  have hHe : (!(lLocalHdr : Str).isEmpty) = true := by decide
  have hCe : (!(lConcerns k).isEmpty) = true := by rfl
  have hPre : (!(lProduce : Str).isEmpty) = true := by decide
  have h1e : (!(lP1 : Str).isEmpty) = true := by decide
  have h2e : (!(lP2 : Str).isEmpty) = true := by decide
  have h3e : (!(lP3 : Str).isEmpty) = true := by decide
  have h4e : (!(lP4 : Str).isEmpty) = true := by decide
  have hKe : (!(lKeep : Str).isEmpty) = true := by decide
  have hFe : (!(lFormat : Str).isEmpty) = true := by decide
  have hIndY : lineIndent lYou = sp4 := by decide
  have hfil : ∃ is,
      ((List.map normLine (splitChar '\n' (promptBody b t c k))).filter
          (fun l => !l.isEmpty)).map lineIndent = sp4 :: is := by
    rw [hN]
    simp only [List.filter_append, List.filter_cons, List.filter_nil,
      List.isEmpty_nil, Bool.not_true, hYe, hTe, hHe, hCe, hPre, h1e, h2e,
      h3e, h4e, hKe, hFe, if_true, if_false, Bool.false_eq_true,
      List.map_append, List.map_cons, hIndY]
    exact ⟨_, rfl⟩
  obtain ⟨is, hfil⟩ := hfil
  have hm : marginOf (List.map normLine (splitChar '\n' (promptBody b t c k))) <+: sp4 :=
    marginOf_prefix hfil
  have hdedent : pyDedent (promptBody b t c k) =
      joinNl ((List.map normLine (splitChar '\n' (promptBody b t c k))).map
        (stripMargin (marginOf (List.map normLine (splitChar '\n' (promptBody b t c k)))))) := rfl
  have hTassoc : lTarget b t = sp4 ++
      ("Target user: ".data ++ (b ++ (". Digital tools used: ".data ++ (t ++ ".".data)))) := by
    simp [lTarget, List.append_assoc]
  have hCassoc : lConcerns k = sp4 ++ ("User-stated concerns: ".data ++ k) := by
    simp [lConcerns, List.append_assoc]
  have hTmem : sp4 ++
      ("Target user: ".data ++ (b ++ (". Digital tools used: ".data ++ (t ++ ".".data))))
        ∈ List.map normLine (splitChar '\n' (promptBody b t c k)) := by
    rw [← hTassoc, hN]
    simp
  have hCmem : sp4 ++ ("User-stated concerns: ".data ++ k)
      ∈ List.map normLine (splitChar '\n' (promptBody b t c k)) := by
    rw [← hCassoc, hN]
    simp
  have hxb : b <:+:
      ("Target user: ".data ++ (b ++ (". Digital tools used: ".data ++ (t ++ ".".data)))) :=
    ⟨"Target user: ".data, ". Digital tools used: ".data ++ (t ++ ".".data),
     by simp [List.append_assoc]⟩
  have hxt : t <:+:
      ("Target user: ".data ++ (b ++ (". Digital tools used: ".data ++ (t ++ ".".data)))) :=
    ⟨"Target user: ".data ++ (b ++ ". Digital tools used: ".data), ".".data,
     by simp [List.append_assoc]⟩
  have hxk : k <:+: ("User-stated concerns: ".data ++ k) :=
    ⟨"User-stated concerns: ".data, [], by simp⟩
  rw [hdedent]
  exact ⟨contains_of_line_member hTmem hm hxb,
    contains_of_line_member hTmem hm hxt,
    contains_of_line_member hCmem hm hxk⟩

/-- Characters of the stripped string come from the original. -/
theorem pyStrip_subset {s : Str} {c : Char} (hc : c ∈ pyStrip s) : c ∈ s := by
  unfold pyStrip dropEnd at hc
  rw [List.mem_reverse] at hc
  have h1 : c ∈ (List.dropWhile pyIsSpace s).reverse :=
    List.Sublist.subset (List.dropWhile_sublist _) hc
  rw [List.mem_reverse] at h1
  exact List.Sublist.subset (List.dropWhile_sublist _) h1

/-- Stripping introduces no newline. -/
theorem noNl_pyStrip {s : Str} (h : ('\n') ∉ s) : ('\n') ∉ pyStrip s :=
  fun hc => h (pyStrip_subset hc)

/-- Lowercasing introduces no newline. -/
theorem noNl_pyLower {s : Str} (h : ('\n') ∉ s) : ('\n') ∉ pyLower s := by
  intro hc
  unfold pyLower at hc
  obtain ⟨a, ha, hEq⟩ := List.mem_map.mp hc
  rw [toLower_eq_nl] at hEq
  exact h (hEq ▸ ha)

/-! ## Claim C5 (corrected) -/

/-- C5 counterexample: the claim asserts the prompt contains the raw tools
string as submitted; for the valid request `cexForm` (business type
`Whatsapp Vendor`, tools `POS`) the flow completes, but the prompt does not
contain the submitted string `POS` — the handler lowercases the tools string
before it reaches the prompt (it contains `pos` instead). -/
theorem C5_counterexample :
    (promptOfResult (generate cexForm cexEnv)).isSome = true ∧
    ("pos".data) <:+: (promptOfResult (generate cexForm cexEnv)).getD [] ∧
    ¬ (("POS".data) <:+: (promptOfResult (generate cexForm cexEnv)).getD []) := by
  refine ⟨by decide, ?_, ?_⟩
  · apply strContainsB_iff.mp
    decide
  · intro h
    have h1 := strContainsB_iff.mpr h
    have h2 : strContainsB ((promptOfResult (generate cexForm cexEnv)).getD [])
        ("POS".data) = false := by decide
    rw [h1] at h2
    exact absurd h2 (by decide)

/-- C5 amended: for every valid business type, provided the submitted tools
and concerns contain no newline character, the prompt constructed by the
`/generate` flow contains verbatim the title-cased business type, the
normalised (trimmed and lowercased) tools string, and the trimmed concerns
string (or the default phrase when concerns is empty). -/
theorem C5_prompt_contains (form : GenForm) (env : GenEnv) (ctx : Str)
    (hb : btOf form ∈ allowed_types)
    (ht : ('\n') ∉ form.tools.getD []) (hk : ('\n') ∉ form.concerns.getD [])
    (hload : load_local_context env.storiesFile 20 = Except.ok ctx) :
    ∃ policy,
      generate form env = Except.ok
        (GenResult.completed (promptFor form ctx) policy (filenameFor form env)
          (btOf form) (toolsOf form) (concernsOf form), true) ∧
      pyTitle (btOf form) <:+: promptFor form ctx ∧
      toolsOf form <:+: promptFor form ctx ∧
      (if concernsOf form = [] then defaultConcerns else concernsOf form)
        <:+: promptFor form ctx := by
  refine ⟨policyFor form env ctx, generate_eq_completed hb hload, ?_⟩
  have hmatch : (match concernsOf form with | [] => defaultConcerns | c => c)
      = (if concernsOf form = [] then defaultConcerns else concernsOf form) := by
    cases concernsOf form with
    | nil => rfl
    | cons a l => rfl
  have hbase : construct_prompt
      ⟨some (pyTitle (btOf form)), some (toolsOf form), some (concernsOf form)⟩ ctx
      = pyDedent (promptBody (pyTitle (btOf form)) (toolsOf form) ctx
          (if concernsOf form = [] then defaultConcerns else concernsOf form)) := by
    show pyDedent (promptBody (pyTitle (btOf form)) (toolsOf form) ctx
      (match concernsOf form with | [] => defaultConcerns | c => c)) = _
    rw [hmatch]
  have hbt2 : btOf form = ("whatsapp vendor".data : Str)
      ∨ btOf form = ("street trader".data : Str) := by
    simpa [allowed_types] using hb
  have hnb : ('\n') ∉ pyTitle (btOf form) := by
    rcases hbt2 with h | h <;> rw [h] <;> decide
  have hnt : ('\n') ∉ toolsOf form := noNl_pyLower (noNl_pyStrip ht)
  have hnk : ('\n') ∉
      (if concernsOf form = [] then defaultConcerns else concernsOf form) := by
    by_cases hce : concernsOf form = []
    · rw [if_pos hce]
      decide
    · rw [if_neg hce]
      exact noNl_pyStrip hk
  obtain ⟨cb, ct, ck⟩ := dedent_promptBody_contains (pyTitle (btOf form))
    (toolsOf form) ctx
    (if concernsOf form = [] then defaultConcerns else concernsOf form)
    hnb hnt hnk
  have hlift : ∀ x : Str,
      x <:+: pyDedent (promptBody (pyTitle (btOf form)) (toolsOf form) ctx
        (if concernsOf form = [] then defaultConcerns else concernsOf form)) →
      x <:+: promptFor form ctx := by
    intro x hx
    rw [← hbase] at hx
    by_cases hu : unrecognizedOf (toolsOf form) = []
    · simp only [promptFor, if_pos hu]
      exact hx
    · simp only [promptFor, if_neg hu]
      exact List.IsInfix.trans hx (List.IsPrefix.isInfix (List.prefix_append _ _))
  exact ⟨hlift _ cb, hlift _ ct, hlift _ ck⟩

/-- C5 witness: a concrete valid request with newline-free tools and
concerns. -/
theorem C5_witness :
    (btOf wForm ∈ allowed_types ∧ ('\n') ∉ wForm.tools.getD []
      ∧ ('\n') ∉ wForm.concerns.getD []
      ∧ load_local_context cexEnv.storiesFile 20 = Except.ok []) ∧
    (∃ policy,
      generate wForm cexEnv = Except.ok
        (GenResult.completed (promptFor wForm []) policy (filenameFor wForm cexEnv)
          (btOf wForm) (toolsOf wForm) (concernsOf wForm), true) ∧
      pyTitle (btOf wForm) <:+: promptFor wForm [] ∧
      toolsOf wForm <:+: promptFor wForm [] ∧
      (if concernsOf wForm = [] then defaultConcerns else concernsOf wForm)
        <:+: promptFor wForm []) :=
  ⟨⟨by decide, by decide, by decide, rfl⟩,
   C5_prompt_contains wForm cexEnv [] (by decide) (by decide) (by decide) rfl⟩

/-! ## Helper lemmas: case-insensitivity of tool recognition (C10) -/

/-- Splitting at a non-separator head. -/
theorem splitChar_cons_ne {sep c : Char} (h : ¬ c = sep) {s : Str} {l : Str}
    {ls : List Str} (hs : splitChar sep s = l :: ls) :
    splitChar sep (c :: s) = (c :: l) :: ls := by
  simp [splitChar, if_neg h, hs]

/-- Splitting on commas commutes with lowercasing (lowering fixes commas). -/
theorem splitChar_comma_pyLower (s : Str) :
    splitChar ',' (pyLower s) = (splitChar ',' s).map pyLower := by
  induction s with
  | nil => rfl
  | cons c cs ih =>
    have hstep : pyLower (c :: cs) = c.toLower :: pyLower cs := rfl
    obtain ⟨l, ls, hs⟩ : ∃ l ls, splitChar ',' cs = l :: ls := by
      cases hcs : splitChar ',' cs with
      | nil => exact absurd hcs (splitChar_ne_nil ',' cs)
      | cons l ls => exact ⟨l, ls, rfl⟩
    have hls : splitChar ',' (pyLower cs) = pyLower l :: List.map pyLower ls := by
      rw [ih, hs]
      rfl
    by_cases h : c = ','
    · subst h
      have hl : (',' : Char).toLower = ',' := by decide
      rw [hstep, hl, splitChar_cons_sep, splitChar_cons_sep, ih]
      rfl
    · have h2 : ¬ c.toLower = ',' := fun hx => h ((toLower_eq_comma c).mp hx)
      rw [hstep, splitChar_cons_ne h2 hls, splitChar_cons_ne h hs]
      rfl

/-- Stripping commutes with lowercasing (lowering preserves whitespace-ness). -/
theorem pyStrip_pyLower (s : Str) : pyStrip (pyLower s) = pyLower (pyStrip s) := by
  have hfn : (fun c => pyIsSpace (Char.toLower c)) = pyIsSpace :=
    funext fun c => pyIsSpace_toLower c
  unfold pyStrip dropEnd pyLower
  rw [List.dropWhile_map, show pyIsSpace ∘ Char.toLower = pyIsSpace from hfn]
  rw [← List.map_reverse, List.dropWhile_map,
    show pyIsSpace ∘ Char.toLower = pyIsSpace from hfn, ← List.map_reverse]

/-- The tool entries of the lowercased string are the lowercased entries. -/
theorem toolEntries_pyLower (s : Str) :
    toolEntries (pyLower s) = (toolEntries s).map pyLower := by
  unfold toolEntries
  rw [splitChar_comma_pyLower, List.map_map,
    show pyStrip ∘ pyLower = pyLower ∘ pyStrip from funext pyStrip_pyLower,
    ← List.map_map, List.filter_map]
  congr 1
  apply List.filter_congr
  intro x _
  simp [pyLower]

/-- Dropping a satisfied prefix block. -/
theorem dropWhile_append_all {p : Char → Bool} {w z : Str}
    (hw : ∀ a ∈ w, p a = true) :
    List.dropWhile p (w ++ z) = List.dropWhile p z := by
  induction w with
  | nil => rfl
  | cons c cs ih =>
    have hc : p c = true := hw c (List.mem_cons_self c cs)
    simp only [List.cons_append, List.dropWhile_cons, hc, if_true]
    exact ih fun a ha => hw a (List.mem_cons_of_mem c ha)

/-- Dropping distributes over an append whose left part has a survivor. -/
theorem dropWhile_append_of_ne {p : Char → Bool} {x : Str}
    (hx : List.dropWhile p x ≠ []) (w : Str) :
    List.dropWhile p (x ++ w) = List.dropWhile p x ++ w := by
  induction x with
  | nil => exact absurd rfl hx
  | cons c cs ih =>
    by_cases h : p c = true
    · rw [List.dropWhile_cons, if_pos h] at hx
      simp only [List.cons_append, List.dropWhile_cons, h, if_true]
      exact ih hx
    · simp [List.dropWhile_cons, h]

/-- Stripping absorbs an all-whitespace suffix. -/
theorem pyStrip_append_ws {x w : Str} (hw : ∀ a ∈ w, pyIsSpace a = true) :
    pyStrip (x ++ w) = pyStrip x := by
  by_cases hx : List.dropWhile pyIsSpace x = []
  · have hxall : ∀ a ∈ x, pyIsSpace a = true := by
      intro a ha
      by_contra hfalse
      have := List.dropWhile_eq_nil_iff.mp hx a ha
      exact hfalse this
    have h1 : List.dropWhile pyIsSpace (x ++ w) = [] := by
      rw [dropWhile_append_all hxall]
      exact List.dropWhile_eq_nil_iff.mpr fun a ha => hw a ha
    unfold pyStrip
    rw [h1, hx]
  · unfold pyStrip
    rw [dropWhile_append_of_ne hx]
    unfold dropEnd
    rw [List.reverse_append]
    rw [dropWhile_append_all (by
      intro a ha
      exact hw a (List.mem_reverse.mp ha))]

/-- Stripping absorbs an all-whitespace prefix. -/
theorem pyStrip_ws_append {w x : Str} (hw : ∀ a ∈ w, pyIsSpace a = true) :
    pyStrip (w ++ x) = pyStrip x := by
  unfold pyStrip
  rw [dropWhile_append_all hw]

/-- Splitting an append with a separator-free right block only extends the
last entry. -/
theorem splitChar_append_nosep {sep : Char} {w : Str} (hw : sep ∉ w) (s : Str) :
    ∃ init last, splitChar sep s = init ++ [last] ∧
      splitChar sep (s ++ w) = init ++ [last ++ w] := by
  induction s with
  | nil =>
    refine ⟨[], [], rfl, ?_⟩
    rw [List.nil_append, splitChar_no_sep hw]
    rfl
  | cons c cs ih =>
    obtain ⟨init, last, h1, h2⟩ := ih
    by_cases h : c = sep
    · subst h
      exact ⟨[] :: init, last,
        by rw [splitChar_cons_sep, h1]; rfl,
        by rw [List.cons_append, splitChar_cons_sep, h2]; rfl⟩
    · cases init with
      | nil =>
        refine ⟨[], c :: last, ?_, ?_⟩
        · simp [splitChar, if_neg h, h1]
        · simp [splitChar, if_neg h, h2]
      | cons i0 irest =>
        refine ⟨(c :: i0) :: irest, last, ?_, ?_⟩
        · simp [splitChar, if_neg h, h1]
        · simp [splitChar, if_neg h, h2]

/-- Splitting an append with a separator-free left block only extends the
first entry. -/
theorem splitChar_append_front {sep : Char} {w : Str} (hw : sep ∉ w) {s : Str}
    {l : Str} {ls : List Str} (h : splitChar sep s = l :: ls) :
    splitChar sep (w ++ s) = (w ++ l) :: ls := by
  induction w with
  | nil => simpa using h
  | cons c cs ih =>
    have hc : ¬ c = sep := fun hc => hw (hc ▸ List.mem_cons_self c cs)
    have hcs : sep ∉ cs := fun hm => hw (List.mem_cons_of_mem c hm)
    simp [splitChar, if_neg hc, ih hcs, List.cons_append]

/-- Tool entries ignore an all-whitespace suffix of the tools string. -/
theorem toolEntries_append_ws {s w : Str} (hw : ∀ a ∈ w, pyIsSpace a = true) :
    toolEntries (s ++ w) = toolEntries s := by
  have hcomma : ',' ∉ w := fun hm => absurd (hw ',' hm) (by decide)
  obtain ⟨init, last, h1, h2⟩ := splitChar_append_nosep hcomma s
  unfold toolEntries
  rw [h1, h2, List.map_append, List.map_append]
  simp only [List.map_cons, List.map_nil, pyStrip_append_ws hw]

/-- Tool entries ignore an all-whitespace prefix of the tools string. -/
theorem toolEntries_ws_append {w s : Str} (hw : ∀ a ∈ w, pyIsSpace a = true) :
    toolEntries (w ++ s) = toolEntries s := by
  have hcomma : ',' ∉ w := fun hm => absurd (hw ',' hm) (by decide)
  obtain ⟨l, ls, h1⟩ : ∃ l ls, splitChar ',' s = l :: ls := by
    cases hcs : splitChar ',' s with
    | nil => exact absurd hcs (splitChar_ne_nil ',' s)
    | cons l ls => exact ⟨l, ls, rfl⟩
  unfold toolEntries
  rw [h1, splitChar_append_front hcomma h1]
  simp only [List.map_cons, pyStrip_ws_append hw]

/-- Tool entries are invariant under the outer strip of the tools string. -/
theorem toolEntries_pyStrip (s : Str) : toolEntries (pyStrip s) = toolEntries s := by
  have hsplit : s = List.takeWhile pyIsSpace s ++ List.dropWhile pyIsSpace s :=
    (List.takeWhile_append_dropWhile pyIsSpace s).symm
  have htw : ∀ a ∈ List.takeWhile pyIsSpace s, pyIsSpace a = true :=
    fun a ha => List.mem_takeWhile_imp ha
  set d := List.dropWhile pyIsSpace s with hd
  have hdsplit : d = pyStrip s ++ (List.takeWhile pyIsSpace d.reverse).reverse := by
    unfold pyStrip dropEnd
    rw [← hd]
    conv_lhs => rw [← List.reverse_reverse d,
      ← List.takeWhile_append_dropWhile pyIsSpace d.reverse]
    rw [List.reverse_append]
  have hsw : ∀ a ∈ (List.takeWhile pyIsSpace d.reverse).reverse, pyIsSpace a = true :=
    fun a ha => List.mem_takeWhile_imp (List.mem_reverse.mp ha)
  calc toolEntries (pyStrip s)
      = toolEntries (pyStrip s ++ (List.takeWhile pyIsSpace d.reverse).reverse) :=
        (toolEntries_append_ws hsw).symm
    _ = toolEntries d := by rw [← hdsplit]
    _ = toolEntries (List.takeWhile pyIsSpace s ++ d) :=
        (toolEntries_ws_append htw).symm
    _ = toolEntries s := by rw [hd, ← hsplit]

/-! ## Claim C10 -/

/-- C10: recognition of tool entries is case-insensitive — `generate`
lowercases the whole tools string before splitting and the allow-list is all
lowercase — so when every submitted entry differs from a recognized tool only
in letter case, the unrecognized set is empty and the advisory clause is not
appended to the prompt. -/
theorem C10_case_insensitive_tools (form : GenForm) (env : GenEnv) (ctx : Str)
    (hb : btOf form ∈ allowed_types)
    (hload : load_local_context env.storiesFile 20 = Except.ok ctx)
    (htools : ∀ e ∈ toolEntries (form.tools.getD []), pyLower e ∈ valid_tools) :
    unrecognizedOf (toolsOf form) = [] ∧
    ∃ policy,
      generate form env = Except.ok
        (GenResult.completed (promptFor form ctx) policy (filenameFor form env)
          (btOf form) (toolsOf form) (concernsOf form), true) ∧
      ¬ (extraNote <:+ promptFor form ctx) := by
  have hentries : toolEntries (toolsOf form) =
      (toolEntries (form.tools.getD [])).map pyLower := by
    unfold toolsOf
    rw [toolEntries_pyLower, toolEntries_pyStrip]
  have hun : unrecognizedOf (toolsOf form) = [] := by
    unfold unrecognizedOf
    rw [hentries, List.filter_eq_nil_iff]
    intro a ha
    obtain ⟨e, he, rfl⟩ := List.mem_map.mp ha
    simp [htools e he]
  refine ⟨hun, policyFor form env ctx, generate_eq_completed hb hload, ?_⟩
  simp only [promptFor, if_pos hun]
  obtain ⟨B, T, K, heq⟩ := construct_prompt_eq
    ⟨some (pyTitle (btOf form)), some (toolsOf form), some (concernsOf form)⟩ ctx
  rw [heq]
  exact extraNote_not_suffix_dedent B T ctx K

/-- C10 witness: tool entries `WhatsApp` and `Mobile Money` (case variants of
recognized tools) on a valid request. -/
theorem C10_witness :
    (btOf wCaseForm ∈ allowed_types ∧
      load_local_context cexEnv.storiesFile 20 = Except.ok [] ∧
      ∀ e ∈ toolEntries (wCaseForm.tools.getD []), pyLower e ∈ valid_tools) ∧
    (unrecognizedOf (toolsOf wCaseForm) = [] ∧
    ∃ policy,
      generate wCaseForm cexEnv = Except.ok
        (GenResult.completed (promptFor wCaseForm []) policy
          (filenameFor wCaseForm cexEnv)
          (btOf wCaseForm) (toolsOf wCaseForm) (concernsOf wCaseForm), true) ∧
      ¬ (extraNote <:+ promptFor wCaseForm [])) :=
  ⟨⟨by decide, rfl, by decide⟩,
   C10_case_insensitive_tools wCaseForm cexEnv [] (by decide) rfl (by decide)⟩
